import Mathlib

/-!
Verification of the kvm-serial input-encoding core against its specification.

Shallow embedding conventions:
* Python `bytes` / `array("B", ...)` values are `List Nat` (each entry a byte value).
* Fallible Python code returns `Except String α`; `.error` marks a raised
  exception (the string names the Python exception), `.ok` the normal result.
  For functions that write to the serial transport, the `.ok` payload records
  exactly the bytes handed to the single `port.write` call; `.error` means the
  exception fired before any write.
* Python dicts are association lists (`List (Char × Nat)` etc.); insertion
  order is preserved and key update / `pop` are modelled explicitly below, so
  `List.lookup` agrees with Python dict lookup (keys are unique throughout).
-/

/-- Embeds `build_scancode` from `kvm_serial/utils/utils.py`: an 8-byte zero
array with index 2 set to the key byte and index 0 set to the modifier. -/
def build_scancode (byte : Nat) (modifier : Nat) : List Nat :=
  ((List.replicate 8 0).set 2 byte).set 0 modifier

/-- Inner `while code[offset]:` loop of `merge_scancodes`.  `rest` is the
suffix `code[offset:]` of the current scancode (the loop only ever reads
`code[offset]` and increments `offset`, so walking the suffix is equivalent);
`retval` and `filled` are the packet being filled and the write cursor.
Python raises IndexError when `offset` runs past the end of `code`, and
OverflowError when `filled` reaches `max_packet_size` right after a write
(note: the check runs after the write, so it also fires when the write that
just happened filled the last slot).  `retval[filled] = ...` is in bounds
whenever the OverflowError guard has not fired, which holds at every call
site in this development. -/
def packKeys : List Nat → List Nat → Nat → Nat → Except String (List Nat × Nat)
  | [], _, _, _ => .error "IndexError: array index out of range"
  | k :: rest, retval, filled, maxPacketSize =>
    if k = 0 then .ok (retval, filled)
    else
      let retval2 := retval.set filled k
      if maxPacketSize ≤ filled + 1 then
        .error "OverflowError: Unable to pack into single packet"
      else packKeys rest retval2 (filled + 1) maxPacketSize

/-- Outer `for code in byte_arrays:` loop of `merge_scancodes`: OR the
modifier byte of each input into `retval[0]`, then pack its key bytes. -/
def mergeGo : List (List Nat) → List Nat → Nat → Nat → Except String (List Nat)
  | [], retval, _, _ => .ok retval
  | code :: restCodes, retval, filled, maxPacketSize =>
    match code[0]? with
    | none => .error "IndexError: array index out of range"
    | some c0 =>
      let retval1 := retval.set 0 (retval.getD 0 0 ||| c0)
      match packKeys (code.drop 2) retval1 filled maxPacketSize with
      | .ok (retval2, filled2) => mergeGo restCodes retval2 filled2 maxPacketSize
      | .error e => .error e

/-- Embeds `merge_scancodes` from `kvm_serial/utils/utils.py`. -/
def merge_scancodes (byteArrays : List (List Nat)) (maxPacketSize : Nat) :
    Except String (List Nat) :=
  mergeGo byteArrays (List.replicate maxPacketSize 0) 2 maxPacketSize

/-- A well-formed scancode per the data model: 8 bytes, with the key-code
bytes (positions 2..7) packed as a run of non-zero codes followed by zero
padding. -/
def IsPackedScancode (s : List Nat) : Prop :=
  ∃ m r ks, s = m :: r :: (ks ++ List.replicate (6 - ks.length) 0)
    ∧ ks.length ≤ 6 ∧ ∀ k ∈ ks, k ≠ 0

/-- Number of non-zero key-code bytes (positions 2..) of a scancode. -/
def keyCount (s : List Nat) : Nat :=
  ((s.drop 2).filter (fun k => k ≠ 0)).length

/-- The non-zero key-code bytes (positions 2..) of a scancode, in order. -/
def keyBytes (s : List Nat) : List Nat :=
  (s.drop 2).filter (fun k => k ≠ 0)

-- Sanity check of the docstring example of merge_scancodes.
example :
    merge_scancodes
      [[1, 0, 4, 0, 0, 0, 0, 0], [0, 0, 22, 0, 0, 0, 0, 0],
       [0, 0, 7, 0, 0, 0, 0, 0], [2, 0, 5, 0, 0, 0, 0, 0]] 8
    = .ok [3, 0, 4, 22, 7, 5, 0, 0] := rfl

/-! Keyboard layout tables, from `kvm_serial/utils/keyboard_layouts.py`.
Every key character is written as its `Char.ofNat` code point so the tables
can be diffed against the Python source by codepoint; for the non-printing
and quote-like ones: 8 = backspace, 34 = double quote, 39 = apostrophe,
96 = backtick, 123/125 = braces, 163 = pound sign, 172 = not sign. -/

/-- Embeds `BASE_LAYOUT` (en_GB ISO base table), in source order. -/
def BASE_LAYOUT : List (Char × Nat) :=
  [(Char.ofNat 97, 0x04), (Char.ofNat 98, 0x05), (Char.ofNat 99, 0x06), (Char.ofNat 100, 0x07),
   (Char.ofNat 101, 0x08), (Char.ofNat 102, 0x09), (Char.ofNat 103, 0x0a), (Char.ofNat 104, 0x0b),
   (Char.ofNat 105, 0x0c), (Char.ofNat 106, 0x0d), (Char.ofNat 107, 0x0e), (Char.ofNat 108, 0x0f),
   (Char.ofNat 109, 0x10), (Char.ofNat 110, 0x11), (Char.ofNat 111, 0x12), (Char.ofNat 112, 0x13),
   (Char.ofNat 113, 0x14), (Char.ofNat 114, 0x15), (Char.ofNat 115, 0x16), (Char.ofNat 116, 0x17),
   (Char.ofNat 117, 0x18), (Char.ofNat 118, 0x19), (Char.ofNat 119, 0x1a), (Char.ofNat 120, 0x1b),
   (Char.ofNat 121, 0x1c), (Char.ofNat 122, 0x1d),
   (Char.ofNat 49, 0x1e), (Char.ofNat 50, 0x1f), (Char.ofNat 51, 0x20), (Char.ofNat 52, 0x21),
   (Char.ofNat 53, 0x22), (Char.ofNat 54, 0x23), (Char.ofNat 55, 0x24), (Char.ofNat 56, 0x25),
   (Char.ofNat 57, 0x26), (Char.ofNat 48, 0x27),
   (Char.ofNat 45, 0x2d), (Char.ofNat 61, 0x2e), (Char.ofNat 91, 0x2f), (Char.ofNat 93, 0x30),
   (Char.ofNat 35, 0x32), (Char.ofNat 59, 0x33), (Char.ofNat 39, 0x34), (Char.ofNat 96, 0x35),
   (Char.ofNat 44, 0x36), (Char.ofNat 46, 0x37), (Char.ofNat 47, 0x38), (Char.ofNat 92, 0x64),
   (Char.ofNat 10, 0x28), (Char.ofNat 9, 0x2b), (Char.ofNat 8, 0x2a), (Char.ofNat 32, 0x2c),
   (Char.ofNat 65, 0x04), (Char.ofNat 66, 0x05), (Char.ofNat 67, 0x06), (Char.ofNat 68, 0x07),
   (Char.ofNat 69, 0x08), (Char.ofNat 70, 0x09), (Char.ofNat 71, 0x0a), (Char.ofNat 72, 0x0b),
   (Char.ofNat 73, 0x0c), (Char.ofNat 74, 0x0d), (Char.ofNat 75, 0x0e), (Char.ofNat 76, 0x0f),
   (Char.ofNat 77, 0x10), (Char.ofNat 78, 0x11), (Char.ofNat 79, 0x12), (Char.ofNat 80, 0x13),
   (Char.ofNat 81, 0x14), (Char.ofNat 82, 0x15), (Char.ofNat 83, 0x16), (Char.ofNat 84, 0x17),
   (Char.ofNat 85, 0x18), (Char.ofNat 86, 0x19), (Char.ofNat 87, 0x1a), (Char.ofNat 88, 0x1b),
   (Char.ofNat 89, 0x1c), (Char.ofNat 90, 0x1d),
   (Char.ofNat 33, 0x1e), (Char.ofNat 34, 0x1f), (Char.ofNat 163, 0x20), (Char.ofNat 36, 0x21),
   (Char.ofNat 37, 0x22), (Char.ofNat 94, 0x23), (Char.ofNat 38, 0x24), (Char.ofNat 42, 0x25),
   (Char.ofNat 40, 0x26), (Char.ofNat 41, 0x27), (Char.ofNat 95, 0x2d), (Char.ofNat 43, 0x2e),
   (Char.ofNat 123, 0x2f), (Char.ofNat 125, 0x30), (Char.ofNat 126, 0x32), (Char.ofNat 58, 0x33),
   (Char.ofNat 64, 0x34), (Char.ofNat 172, 0x35), (Char.ofNat 60, 0x36), (Char.ofNat 62, 0x37),
   (Char.ofNat 63, 0x38), (Char.ofNat 124, 0x64)]

/-- Python dict assignment `d[k] = v` on an association list: replace the
value at an existing key in place, else append the new binding. -/
def dictSet (l : List (Char × Nat)) (k : Char) (v : Nat) : List (Char × Nat) :=
  if l.any (fun kv => kv.1 == k) then
    l.map (fun kv => if kv.1 = k then (kv.1, v) else kv)
  else l ++ [(k, v)]

/-- Python `d.pop(k, None)` on an association list: drop the binding for `k`
if present (no error when absent). -/
def dictPop (l : List (Char × Nat)) (k : Char) : List (Char × Nat) :=
  l.filter (fun kv => kv.1 != k)

/-- Embeds `LAYOUT_OVERRIDES`: per-layout sparse override tables; a `none`
value marks the character as unavailable in that layout (removed). -/
def LAYOUT_OVERRIDES : List (String × List (Char × Option Nat)) :=
  [("en_GB", []),
   ("en_US",
     [(Char.ofNat 34, some 0x34), (Char.ofNat 64, some 0x1F), (Char.ofNat 35, some 0x20),
      (Char.ofNat 163, none), (Char.ofNat 172, none)])]

/-- One iteration of the override-application loop in `get_layout`. -/
def applyOverride (l : List (Char × Nat)) (ov : Char × Option Nat) : List (Char × Nat) :=
  match ov.2 with
  | none => dictPop l ov.1
  | some v => dictSet l ov.1 v

/-- State-passing embedding of `get_layout`: `base` is the current value of
the module-level `BASE_LAYOUT` dict.  The function starts from
`BASE_LAYOUT.copy()`, so all pop/assignment writes act on the copy; the
returned pair is (module state after the call, layout returned to the
caller).  Unknown layout names raise ValueError. -/
def get_layout_st (base : List (Char × Nat)) (layoutName : String) :
    Except String (List (Char × Nat) × List (Char × Nat)) :=
  match List.lookup layoutName LAYOUT_OVERRIDES with
  | none => .error "ValueError: Unknown keyboard layout"
  | some ov => .ok (base, ov.foldl applyOverride base)

/-- Embeds `get_layout` as called with the pristine module-level table. -/
def get_layout (layoutName : String) : Except String (List (Char × Nat)) :=
  (get_layout_st BASE_LAYOUT layoutName).map Prod.snd

/-- Layout returned by `get_layout`, with `[]` for the error case (only used
to state theorems about names where `get_layout` succeeds). -/
def getLayoutD (layoutName : String) : List (Char × Nat) :=
  match get_layout layoutName with
  | .ok l => l
  | .error _ => []

/-- Layout returned by `get_layout` under an arbitrary module state. -/
def getLayoutSt (base : List (Char × Nat)) (layoutName : String) : List (Char × Nat) :=
  match get_layout_st base layoutName with
  | .ok r => r.2
  | .error _ => []

/-- Runs a sequence of `get_layout` calls, threading the module-level
`BASE_LAYOUT` state (an exception leaves the state unchanged). -/
def runCalls (calls : List String) (base : List (Char × Nat)) : List (Char × Nat) :=
  calls.foldl
    (fun s n =>
      match get_layout_st s n with
      | .ok r => r.1
      | .error _ => s)
    base

-- Spot checks against the source tables.
example : List.lookup (Char.ofNat 163) (getLayoutD "en_GB") = some 0x20 := rfl
example : List.lookup (Char.ofNat 163) (getLayoutD "en_US") = none := rfl
example : List.lookup (Char.ofNat 34) (getLayoutD "en_US") = some 0x34 := rfl
example : get_layout "fr_FR" = .error "ValueError: Unknown keyboard layout" := rfl

/-- Characters of the Python literal `"\n\t\b -=[];';,./\\` "` used by
`ascii_to_scancode` to pick out non-shift characters (duplicates kept). -/
def directPunct : List Char :=
  [Char.ofNat 10, Char.ofNat 9, Char.ofNat 8, Char.ofNat 32, Char.ofNat 45, Char.ofNat 61,
   Char.ofNat 91, Char.ofNat 93, Char.ofNat 59, Char.ofNat 39, Char.ofNat 59, Char.ofNat 44,
   Char.ofNat 46, Char.ofNat 47, Char.ofNat 92, Char.ofNat 96, Char.ofNat 32]

/-- The filter `k.islower() or k.isdigit() or k in "\n\t\b -=[];';,./\\` "`
from `ascii_to_scancode`.  Python `str.islower`/`str.isdigit` agree with the
ASCII-only `Char.isLower`/`Char.isDigit` on every key of the layout tables
(the only non-ASCII keys are the uncased signs for pound and not, 163/172),
and the predicate is only ever applied to layout keys. -/
def isDirect (c : Char) : Bool :=
  c.isLower || c.isDigit || directPunct.contains c

/-- Embeds `ascii_to_scancode` from `kvm_serial/utils/utils.py`: resolve the
layout (falling back to en_GB when `get_layout` raises ValueError), split it
into non-shift and shift tables, and build a scancode; characters absent
from the layout yield the key-code-0 scancode rather than an error. -/
def ascii_to_scancode (asciiChar : Char) (layout : String) : List Nat :=
  let layoutMap :=
    match get_layout layout with
    | .ok m => m
    | .error _ => getLayoutD "en_GB"
  let nonShiftChars := layoutMap.filter (fun kv => isDirect kv.1)
  let shiftChars := layoutMap.filter (fun kv => !(nonShiftChars.any (fun p => p.1 == kv.1)))
  match List.lookup asciiChar nonShiftChars with
  | some v => build_scancode v 0x0
  | none =>
    match List.lookup asciiChar shiftChars with
    | some v => build_scancode v 0x2
    | none => build_scancode 0x0 0x0

-- Spot checks: lowercase direct, uppercase shifted, unmapped char.
example : ascii_to_scancode (Char.ofNat 97) "en_GB" = [0, 0, 0x04, 0, 0, 0, 0, 0] := rfl
example : ascii_to_scancode (Char.ofNat 65) "en_GB" = [2, 0, 0x04, 0, 0, 0, 0, 0] := rfl
example : ascii_to_scancode (Char.ofNat 7) "en_GB" = [0, 0, 0, 0, 0, 0, 0, 0] := rfl
example : ascii_to_scancode (Char.ofNat 35) "en_US" = [2, 0, 0x20, 0, 0, 0, 0, 0] := rfl

/-- Python `int.from_bytes(bs, "big")`. -/
def intFromBytesBE (bs : List Nat) : Nat :=
  bs.foldl (fun a b => 256 * a + b) 0

namespace DataComm

/-- Embeds `DataComm.send` from `kvm_serial/utils/communication.py`.
The `.ok` payload is the packet handed to the single `port.write` call;
a malformed head/addr/cmd raises ValueError before anything is written, and
a payload longer than 255 bytes makes `len(data).to_bytes(1, "little")`
raise OverflowError, also before anything is written. -/
def send (data head addr cmd : List Nat) : Except String (List Nat) :=
  if head.length ≠ 2 ∨ addr.length ≠ 1 ∨ cmd.length ≠ 1 then
    .error "ValueError: DataComm packet header MUST have: header 2b; addr 1b; cmd 1b"
  else if 255 < data.length then
    .error "OverflowError: int too big to convert"
  else
    let lengthBytes := [data.length]
    let checksum :=
      (head.sum + intFromBytesBE addr + intFromBytesBE cmd + intFromBytesBE lengthBytes
        + data.sum) % 256
    .ok (head ++ addr ++ cmd ++ lengthBytes ++ data ++ [checksum])

/-- Default argument values of `send`: head `b"\x57\xab"`, addr `b"\x00"`,
cmd `b"\x02"`. -/
def sendDefault (data : List Nat) : Except String (List Nat) :=
  send data [0x57, 0xab] [0x00] [0x02]

/-- Embeds `DataComm.send_scancode`: scancodes shorter than
`SCANCODE_LENGTH = 8` give a `False` return with no write; otherwise the
scancode is sent through `send` with the default keyboard command 0x02.
The `.ok` payload pairs the boolean return value with the list of packets
written to the port. -/
def send_scancode (scancode : List Nat) : Except String (Bool × List (List Nat)) :=
  if scancode.length < 8 then .ok (false, [])
  else (sendDefault scancode).map (fun pkt => (true, [pkt]))

end DataComm

-- Spot check: the 14-byte keyboard frame for a release-all scancode.
example :
    DataComm.send_scancode [0, 0, 0, 0, 0, 0, 0, 0]
    = .ok (true, [[0x57, 0xab, 0, 2, 8, 0, 0, 0, 0, 0, 0, 0, 0, 0x0c]]) := rfl

/-- Embeds `hid_to_ascii_mapping` of `scancode_to_ascii`
(`kvm_serial/utils/utils.py`): HID code to ASCII text, unshifted.
The apostrophe value is written `"\x27"`. -/
def hidToAscii (k : Nat) : Option String :=
  match k with
  | 0x04 => some "a" | 0x05 => some "b" | 0x06 => some "c" | 0x07 => some "d"
  | 0x08 => some "e" | 0x09 => some "f" | 0x0a => some "g" | 0x0b => some "h"
  | 0x0c => some "i" | 0x0d => some "j" | 0x0e => some "k" | 0x0f => some "l"
  | 0x10 => some "m" | 0x11 => some "n" | 0x12 => some "o" | 0x13 => some "p"
  | 0x14 => some "q" | 0x15 => some "r" | 0x16 => some "s" | 0x17 => some "t"
  | 0x18 => some "u" | 0x19 => some "v" | 0x1a => some "w" | 0x1b => some "x"
  | 0x1c => some "y" | 0x1d => some "z" | 0x1e => some "1" | 0x1f => some "2"
  | 0x20 => some "3" | 0x21 => some "4" | 0x22 => some "5" | 0x23 => some "6"
  | 0x24 => some "7" | 0x25 => some "8" | 0x26 => some "9" | 0x27 => some "0"
  | 0x2d => some "-" | 0x2e => some "=" | 0x2f => some "[" | 0x30 => some "]"
  | 0x31 => some "#" | 0x32 => some "#" | 0x33 => some ";" | 0x34 => some "\x27"
  | 0x35 => some "`" | 0x36 => some "," | 0x37 => some "." | 0x38 => some "/"
  | 0x39 => some "CAPSLOCK" | 0x29 => some "ESC"
  | 0x4f => some "→" | 0x50 => some "←" | 0x51 => some "↓" | 0x52 => some "↑"
  | 0x49 => some "Ins" | 0x4a => some "Home" | 0x4b => some "PgUp"
  | 0x4c => some "Del" | 0x4d => some "End" | 0x4e => some "PgDn"
  | 0x28 => some "\n" | 0x2c => some " " | 0x2b => some "\t"
  | 0x2a => some "\x08" | 0x64 => some "\\"
  | _ => none

/-- Embeds `modifier_ascii_mapping`: a copy of the base table with the
shift-modified entries overwritten; everything else falls through. -/
def hidToAsciiShift (k : Nat) : Option String :=
  match k with
  | 0x04 => some "A" | 0x05 => some "B" | 0x06 => some "C" | 0x07 => some "D"
  | 0x08 => some "E" | 0x09 => some "F" | 0x0a => some "G" | 0x0b => some "H"
  | 0x0c => some "I" | 0x0d => some "J" | 0x0e => some "K" | 0x0f => some "L"
  | 0x10 => some "M" | 0x11 => some "N" | 0x12 => some "O" | 0x13 => some "P"
  | 0x14 => some "Q" | 0x15 => some "R" | 0x16 => some "S" | 0x17 => some "T"
  | 0x18 => some "U" | 0x19 => some "V" | 0x1a => some "W" | 0x1b => some "X"
  | 0x1c => some "Y" | 0x1d => some "Z" | 0x1e => some "!" | 0x1f => some "\x22"
  | 0x20 => some "#" | 0x21 => some "$" | 0x22 => some "%" | 0x23 => some "^"
  | 0x24 => some "&" | 0x25 => some "*" | 0x26 => some "(" | 0x27 => some ")"
  | 0x2d => some "_" | 0x2e => some "+" | 0x2f => some "\x7b" | 0x30 => some "\x7d"
  | 0x31 => some "~" | 0x32 => some "~" | 0x33 => some ":" | 0x34 => some "@"
  | 0x35 => some "¬" | 0x36 => some "<" | 0x37 => some ">" | 0x38 => some "?"
  | 0x64 => some "|"
  | _ => hidToAscii k

/-- The rollover-buffer scan at the top of `scancode_to_ascii`:
`while index < len(scancode) <= 8` walks from `index`, stopping at the first
positive byte; if the loop runs off the end, `key` holds the last byte read,
which is 0 (or its initial 0 when the loop never ran). -/
def firstKey : List Nat → Nat
  | [] => 0
  | k :: rest => if 0 < k then k else firstKey rest

/-- Embeds `scancode_to_ascii` with `raise_err=False` (the only way the USB
passthrough calls it): pick the first buffered key code from position 2 on
(skipped entirely when the input is longer than 8 bytes), then map it
through the shift table when byte 0 has a shift bit (`scancode[0] & 0x22`),
else the base table; a failed lookup returns None. -/
def scancode_to_ascii (scancode : List Nat) : Option String :=
  let key := if scancode.length ≤ 8 then firstKey (scancode.drop 2) else 0
  if (scancode.getD 0 0) &&& 0x22 ≠ 0 then hidToAsciiShift key
  else hidToAscii key

/-- Python truthiness of the optional string held in `self.debounce`. -/
def optTruthy : Option String → Bool
  | none => false
  | some s => s ≠ ""

/-- Observable outcome of one `PyUSBOp._parse_key` poll step. -/
structure ParseStep where
  cont : Bool
  warned : Bool
  sent : List (List Nat)
  debounce : Option String
  deriving Repr, DecidableEq

namespace PyUSBOp

/-- Embeds `PyUSBOp._parse_key` on a successfully read report `dataIn`
(`kvm_serial/backend/implementations/pyusbop.py`; the USB read itself and
its timeout handling are outside the embedding).  `debounce` is the current
`self.debounce`.  `cont` is the returned loop flag, `warned` records whether
the Ctrl+C pass-through warning was logged, `sent` lists the scancodes
forwarded through `send_scancode`, and `debounce` in the result is the new
`self.debounce`. -/
def _parse_key (dataIn : List Nat) (debounce : Option String) :
    Except String ParseStep :=
  let warned := dataIn.getD 0 0 == 0x1 && dataIn.getD 2 0 == 0x6 && debounce != some "c"
  if dataIn.getD 0 0 == 0x1 && dataIn.getD 2 0 == 0x29 then
    .ok { cont := false, warned := warned, sent := [], debounce := debounce }
  else
    let key := scancode_to_ascii dataIn
    let debounce2 :=
      if key != debounce && optTruthy key then key
      else if !(optTruthy key) then none
      else debounce
    (DataComm.send_scancode dataIn).map (fun r =>
      { cont := r.1, warned := warned, sent := [dataIn], debounce := debounce2 })

end PyUSBOp

-- Spot checks: Ctrl+Esc stops the loop, Ctrl+C warns and forwards.
example :
    PyUSBOp._parse_key [1, 0, 0x29, 0, 0, 0, 0, 0] none
    = .ok { cont := false, warned := false, sent := [], debounce := none } := rfl
example :
    (PyUSBOp._parse_key [1, 0, 0x06, 0, 0, 0, 0, 0] none).map
      (fun r => (r.cont, r.warned, r.sent))
    = .ok (true, true, [[1, 0, 0x06, 0, 0, 0, 0, 0]]) := rfl

namespace MouseOp

/-- Embeds `MouseOp.on_move` (`kvm_serial/backend/implementations/mouseop.py`).
The `.ok` payload pairs the 7-byte absolute-move payload with the command
byte passed to `DataComm.send` (`b"\x04"`).  A folded coordinate outside
0..65535 makes Python `int.to_bytes(2, "little")` raise OverflowError before
anything is sent.  Python floor division `//` is `Int.fdiv`; width and
height are non-zero in every claim, so division by zero is not modelled. -/
def on_move (x y width height : Int) : Except String (List Nat × List Nat) :=
  let dx0 := (4096 * x).fdiv width
  let dy0 := (4096 * y).fdiv height
  let dx := if dx0 < 0 then |4096 + dx0| else dx0
  let dy := if dy0 < 0 then |4096 + dy0| else dy0
  if dx < 0 ∨ 65535 < dx ∨ dy < 0 ∨ 65535 < dy then
    .error "OverflowError: int too big to convert"
  else
    let data := [0x02, 0x00] ++ [dx.toNat % 256, dx.toNat / 256]
      ++ [dy.toNat % 256, dy.toNat / 256]
    let data := if 7 < data.length then data.take 7 else data ++ List.replicate (7 - data.length) 0
    .ok (data, [0x04])

end MouseOp

-- Spot checks from the spec examples.
example : MouseOp.on_move 960 540 1920 1080 = .ok ([2, 0, 0, 8, 0, 8, 0], [4]) := rfl
example : MouseOp.on_move (-100) 540 1920 1080 = .ok ([2, 0, 42, 15, 0, 8, 0], [4]) := rfl

/-! Lemmas about the merge loop. -/

/-- The sequence of writes `retval[filled] = k` performed by the inner loop
for the non-zero key bytes `ks`. -/
def listWrite (retval : List Nat) (filled : Nat) : List Nat → List Nat
  | [] => retval
  | k :: ks => listWrite (retval.set filled k) (filled + 1) ks

lemma set_append_length {α : Type} (acc : List α) (x y : α) (l : List α) :
    (acc ++ x :: l).set acc.length y = acc ++ y :: l := by
  induction acc with
  | nil => rfl
  | cons a acc ih => simp [List.set, ih]

lemma packKeys_ok (ks : List Nat) (pad : Nat) (retval : List Nat) (filled : Nat)
    (hnz : ∀ k ∈ ks, k ≠ 0) (hpad : 1 ≤ pad) (hcap : filled + ks.length < 8) :
    packKeys (ks ++ List.replicate pad 0) retval filled 8
    = .ok (listWrite retval filled ks, filled + ks.length) := by
  induction ks generalizing retval filled with
  | nil =>
    cases pad with
    | zero => omega
    | succ p => simp [packKeys, List.replicate_succ, listWrite]
  | cons k ks ih =>
    have hk : k ≠ 0 := hnz k (by simp)
    have hcap2 : filled + ks.length + 1 < 8 := by simpa [Nat.add_comm] using hcap
    have hlt : ¬ 8 ≤ filled + 1 := by omega
    simp only [List.cons_append, packKeys, if_neg hk, if_neg hlt, List.append_eq,
      ih (retval.set filled k) (filled + 1)
        (fun a ha => hnz a (List.mem_cons_of_mem _ ha)) (by omega),
      listWrite, List.length_cons]
    congr 2
    omega

lemma packKeys_overflow (ks : List Nat) (pad : Nat) (retval : List Nat) (filled : Nat)
    (hnz : ∀ k ∈ ks, k ≠ 0) (hfl : filled < 8) (hcap : 8 ≤ filled + ks.length) :
    packKeys (ks ++ List.replicate pad 0) retval filled 8
    = .error "OverflowError: Unable to pack into single packet" := by
  induction ks generalizing retval filled with
  | nil => simp only [List.length_nil, Nat.add_zero] at hcap; omega
  | cons k ks ih =>
    have hk : k ≠ 0 := hnz k (by simp)
    have hcap2 : 8 ≤ filled + ks.length + 1 := by
      simp only [List.length_cons] at hcap; omega
    simp only [List.cons_append, packKeys, if_neg hk]
    by_cases h8 : 8 ≤ filled + 1
    · simp [h8]
    · simp only [if_neg h8]
      exact ih (retval.set filled k) (filled + 1)
        (fun a ha => hnz a (List.mem_cons_of_mem _ ha)) (by omega) (by omega)

lemma listWrite_shape (ks : List Nat) (acc : List Nat) (m r : Nat)
    (hlen : acc.length + ks.length ≤ 6) :
    listWrite (m :: r :: (acc ++ List.replicate (6 - acc.length) 0)) (2 + acc.length) ks
    = m :: r :: ((acc ++ ks) ++ List.replicate (6 - (acc.length + ks.length)) 0) := by
  induction ks generalizing acc with
  | nil => simp [listWrite]
  | cons k ks ih =>
    have hacc : acc.length < 6 := by simp only [List.length_cons] at hlen; omega
    have hrep : List.replicate (6 - acc.length) (0 : Nat)
        = 0 :: List.replicate (6 - (acc.length + 1)) 0 := by
      have h : 6 - acc.length = (6 - (acc.length + 1)) + 1 := by omega
      rw [h, List.replicate_succ]
    simp only [listWrite]
    have hset : (m :: r :: (acc ++ List.replicate (6 - acc.length) 0)).set (2 + acc.length) k
        = m :: r :: ((acc ++ [k]) ++ List.replicate (6 - (acc ++ [k]).length) 0) := by
      have h2 : 2 + acc.length = acc.length + 1 + 1 := by omega
      rw [hrep, h2]
      simp only [List.set]
      rw [set_append_length]
      simp
    rw [hset]
    have h3 : 2 + acc.length + 1 = 2 + (acc ++ [k]).length := by
      simp only [List.length_append, List.length_cons, List.length_nil]; omega
    rw [h3, ih (acc ++ [k]) (by simp only [List.length_append, List.length_cons,
      List.length_nil] at hlen ⊢; omega)]
    have h4 : (acc ++ [k]).length + ks.length = acc.length + (k :: ks).length := by
      simp only [List.length_append, List.length_cons, List.length_nil]; omega
    rw [h4]
    simp [List.append_assoc]

lemma filter_replicate_zero (p : Nat) :
    (List.replicate p (0 : Nat)).filter (fun k => k ≠ 0) = [] := by
  induction p with
  | zero => rfl
  | succ p ih => simp [List.replicate_succ, List.filter, ih]

lemma keyBytes_packed (m r : Nat) (ks : List Nat) (hnz : ∀ k ∈ ks, k ≠ 0) :
    keyBytes (m :: r :: (ks ++ List.replicate (6 - ks.length) 0)) = ks := by
  simp only [keyBytes, List.drop, List.filter_append, filter_replicate_zero,
    List.append_nil]
  exact List.filter_eq_self.mpr (fun a ha => by simpa using hnz a ha)

lemma keyCount_packed (m r : Nat) (ks : List Nat) (hnz : ∀ k ∈ ks, k ≠ 0) :
    keyCount (m :: r :: (ks ++ List.replicate (6 - ks.length) 0)) = ks.length := by
  have := keyBytes_packed m r ks hnz
  simp only [keyCount]
  simp only [keyBytes] at this
  rw [this]

lemma mergeGo_ok (codes : List (List Nat)) (acc : List Nat) (m : Nat)
    (hpk : ∀ s ∈ codes, IsPackedScancode s)
    (hsum : acc.length + (codes.map keyCount).sum ≤ 5) :
    mergeGo codes (m :: 0 :: (acc ++ List.replicate (6 - acc.length) 0)) (2 + acc.length) 8
    = .ok ((codes.foldl (fun a s => a ||| s.getD 0 0) m) :: 0 ::
        ((acc ++ (codes.map keyBytes).flatten)
          ++ List.replicate (6 - (acc ++ (codes.map keyBytes).flatten).length) 0)) := by
  induction codes generalizing acc m with
  | nil => simp [mergeGo]
  | cons code rest ih =>
    obtain ⟨m1, r1, ks, hcode, hks6, hnz⟩ := hpk code (by simp)
    have hkc : keyCount code = ks.length := by rw [hcode]; exact keyCount_packed _ _ _ hnz
    have hkb : keyBytes code = ks := by rw [hcode]; exact keyBytes_packed _ _ _ hnz
    have hsum2 : acc.length + (ks.length + (rest.map keyCount).sum) ≤ 5 := by
      simpa [hkc] using hsum
    have h0 : code[0]? = some m1 := by rw [hcode]; rfl
    have hdrop : code.drop 2 = ks ++ List.replicate (6 - ks.length) 0 := by rw [hcode]; rfl
    have hor : code.getD 0 0 = m1 := by rw [hcode]; rfl
    have hset : ((m :: 0 :: (acc ++ List.replicate (6 - acc.length) 0)).set 0
        ((m :: 0 :: (acc ++ List.replicate (6 - acc.length) 0)).getD 0 0 ||| m1))
        = (m ||| m1) :: 0 :: (acc ++ List.replicate (6 - acc.length) 0) := rfl
    have hpack := packKeys_ok ks (6 - ks.length) ((m ||| m1) :: 0 ::
        (acc ++ List.replicate (6 - acc.length) 0)) (2 + acc.length)
      hnz (by omega) (by omega)
    have h3 : 2 + acc.length + ks.length = 2 + (acc ++ ks).length := by
      simp only [List.length_append]; omega
    have h4 : 6 - (acc.length + ks.length) = 6 - (acc ++ ks).length := by
      simp only [List.length_append]
    rw [listWrite_shape ks acc (m ||| m1) 0 (by omega), h3, h4] at hpack
    simp only [mergeGo, h0, hdrop, hset, hpack,
      ih (acc ++ ks) (m ||| m1)
        (fun s hs => hpk s (List.mem_cons_of_mem _ hs))
        (by simp only [List.length_append]; omega)]
    simp [h0, hkb, List.append_assoc]

lemma mergeGo_overflow (codes : List (List Nat)) (retval : List Nat) (filled : Nat)
    (hpk : ∀ s ∈ codes, IsPackedScancode s) (hf2 : 2 ≤ filled)
    (hfl : filled < 8) (hsum : 8 ≤ filled + (codes.map keyCount).sum) :
    mergeGo codes retval filled 8
    = .error "OverflowError: Unable to pack into single packet" := by
  induction codes generalizing retval filled with
  | nil => simp only [List.map_nil, List.sum_nil, Nat.add_zero] at hsum; omega
  | cons code rest ih =>
    obtain ⟨m1, r1, ks, hcode, hks6, hnz⟩ := hpk code (by simp)
    have hkc : keyCount code = ks.length := by rw [hcode]; exact keyCount_packed _ _ _ hnz
    have hsum2 : 8 ≤ filled + (ks.length + (rest.map keyCount).sum) := by
      simpa [hkc] using hsum
    have h0 : code[0]? = some m1 := by rw [hcode]; rfl
    have hdrop : code.drop 2 = ks ++ List.replicate (6 - ks.length) 0 := by rw [hcode]; rfl
    by_cases hover : 8 ≤ filled + ks.length
    · simp only [mergeGo, h0, hdrop,
        packKeys_overflow ks (6 - ks.length)
          (retval.set 0 (retval.getD 0 0 ||| m1)) filled hnz hfl hover]
    · push_neg at hover
      simp only [mergeGo, h0, hdrop,
        packKeys_ok ks (6 - ks.length)
          (retval.set 0 (retval.getD 0 0 ||| m1)) filled hnz (by omega) hover]
      exact ih (listWrite (retval.set 0 (retval.getD 0 0 ||| m1)) filled ks)
        (filled + ks.length)
        (fun s hs => hpk s (List.mem_cons_of_mem _ hs)) (by omega) (by omega) (by omega)

/-! Claim C1 and C4: merge_scancodes. -/

/-- C1 counterexample: a single well-formed scancode carrying exactly 6
non-zero key codes (so combined count ≤ 6) makes `merge_scancodes` raise
OverflowError instead of returning the packed report, because the capacity
check `filled >= max_packet_size` runs after each write and so fires on the
write that fills the last slot. -/
theorem C1_counterexample :
    IsPackedScancode [1, 0, 4, 5, 6, 7, 8, 9]
    ∧ keyCount [1, 0, 4, 5, 6, 7, 8, 9] = 6
    ∧ merge_scancodes [[1, 0, 4, 5, 6, 7, 8, 9]] 8
        = .error "OverflowError: Unable to pack into single packet" :=
  ⟨⟨1, 0, [4, 5, 6, 7, 8, 9], rfl, by decide, by decide⟩, by decide, rfl⟩

/-- C1 (amended): for every list of well-formed 8-byte scancodes whose
combined number of non-zero key-code bytes (positions 2..7 of each input)
is at most 5, `merge_scancodes` returns (no overflow error) an 8-byte
scancode whose byte 0 is the bitwise OR of all input byte-0 values and
whose bytes 2.. are exactly the non-zero key-code bytes of the inputs in
input order, zero-padded. -/
theorem C1_merge_ok (codes : List (List Nat))
    (hpk : ∀ s ∈ codes, IsPackedScancode s)
    (hsum : (codes.map keyCount).sum ≤ 5) :
    merge_scancodes codes 8
    = .ok ((codes.foldl (fun a s => a ||| s.getD 0 0) 0) :: 0 ::
        ((codes.map keyBytes).flatten
          ++ List.replicate (6 - (codes.map keyBytes).flatten.length) 0)) := by
  unfold merge_scancodes
  have h0 : (List.replicate 8 (0 : Nat))
      = 0 :: 0 :: (([] : List Nat) ++ List.replicate (6 - ([] : List Nat).length) 0) := by
    decide
  rw [h0]
  have h2 : (2 : Nat) = 2 + ([] : List Nat).length := by decide
  rw [h2, mergeGo_ok codes [] 0 hpk (by simpa using hsum)]
  simp

/-- C1 witness: merging two single-key scancodes packs both keys and ORs
the modifiers. -/
theorem C1_merge_ok_witness :
    merge_scancodes [[1, 0, 4, 0, 0, 0, 0, 0], [2, 0, 5, 0, 0, 0, 0, 0]] 8
    = .ok [3, 0, 4, 5, 0, 0, 0, 0] := by
  have h := C1_merge_ok [[1, 0, 4, 0, 0, 0, 0, 0], [2, 0, 5, 0, 0, 0, 0, 0]]
    (by
      intro s hs
      simp only [List.mem_cons, List.not_mem_nil, or_false] at hs
      rcases hs with h | h <;> subst h
      · exact ⟨1, 0, [4], by decide, by decide, by decide⟩
      · exact ⟨2, 0, [5], by decide, by decide, by decide⟩)
    (by decide)
  exact h.trans (by rfl)

/-- C4 (confirmed): for every list of well-formed 8-byte scancodes whose
combined number of non-zero key-code bytes is strictly greater than 6,
`merge_scancodes` raises OverflowError: it never silently truncates and
never returns a packed result. -/
theorem C4_merge_overflow (codes : List (List Nat))
    (hpk : ∀ s ∈ codes, IsPackedScancode s)
    (hsum : 6 < (codes.map keyCount).sum) :
    merge_scancodes codes 8
    = .error "OverflowError: Unable to pack into single packet" := by
  unfold merge_scancodes
  exact mergeGo_overflow codes _ 2 hpk (by omega) (by omega) (by omega)

/-- C4 witness: seven non-zero key codes across two scancodes overflow. -/
theorem C4_merge_overflow_witness :
    merge_scancodes [[0, 0, 4, 5, 6, 7, 8, 9], [0, 0, 4, 0, 0, 0, 0, 0]] 8
    = .error "OverflowError: Unable to pack into single packet" :=
  C4_merge_overflow _
    (by
      intro s hs
      simp only [List.mem_cons, List.not_mem_nil, or_false] at hs
      rcases hs with h | h <;> subst h
      · exact ⟨0, 0, [4, 5, 6, 7, 8, 9], by decide, by decide, by decide⟩
      · exact ⟨0, 0, [4], by decide, by decide, by decide⟩)
    (by decide)

/-! Association-list lemmas for the Python dict model. -/

lemma lookup_filter_key (p : Char → Bool) (l : List (Char × Nat)) (c : Char) :
    List.lookup c (l.filter (fun kv => p kv.1))
    = if p c then List.lookup c l else none := by
  induction l with
  | nil => simp [List.lookup]
  | cons kv l ih =>
    obtain ⟨k, v⟩ := kv
    by_cases hck : c = k
    · subst hck
      by_cases hpc : p c
      · simp [List.filter_cons, hpc, List.lookup]
      · simp [List.filter_cons, hpc, List.lookup, ih]
    · have hbeq : (c == k) = false := beq_eq_false_iff_ne.mpr hck
      by_cases hpk : p k
      · simp [List.filter_cons, hpk, List.lookup, hbeq, ih]
      · simp [List.filter_cons, hpk, List.lookup, hbeq, ih]

lemma any_key_eq_lookup_isSome (l : List (Char × Nat)) (c : Char) :
    l.any (fun kv => kv.1 == c) = (List.lookup c l).isSome := by
  induction l with
  | nil => simp [List.lookup]
  | cons kv l ih =>
    obtain ⟨k, v⟩ := kv
    by_cases hck : c = k
    · subst hck; simp [List.lookup, List.any_cons]
    · have hbeq : (c == k) = false := beq_eq_false_iff_ne.mpr hck
      have hbeq2 : (k == c) = false := beq_eq_false_iff_ne.mpr (Ne.symm hck)
      simp [List.lookup, List.any_cons, hbeq, hbeq2, ih]

lemma any_key_filter (q : Char → Bool) (l : List (Char × Nat)) (c : Char) :
    ((l.filter (fun kv => q kv.1)).any (fun kv => kv.1 == c))
    = (q c && l.any (fun kv => kv.1 == c)) := by
  induction l with
  | nil => simp
  | cons kv l ih =>
    obtain ⟨k, v⟩ := kv
    by_cases hck : k = c
    · subst hck
      by_cases hqc : q k
      · simp [List.filter_cons, hqc, List.any_cons]
      · simp [List.filter_cons, hqc, List.any_cons, ih]
    · have hbeq : (k == c) = false := beq_eq_false_iff_ne.mpr hck
      by_cases hqk : q k
      · simp [List.filter_cons, hqk, List.any_cons, hbeq, ih]
      · simp [List.filter_cons, hqk, List.any_cons, hbeq, ih]

lemma lookup_append_pair (l l2 : List (Char × Nat)) (c : Char) :
    List.lookup c (l ++ l2)
    = match List.lookup c l with
      | some v => some v
      | none => List.lookup c l2 := by
  induction l with
  | nil => simp [List.lookup]
  | cons kv l ih =>
    obtain ⟨k, v⟩ := kv
    by_cases hck : c = k
    · subst hck; simp [List.lookup]
    · have hbeq : (c == k) = false := beq_eq_false_iff_ne.mpr hck
      simp [List.lookup, hbeq, ih]

lemma lookup_map_setval (l : List (Char × Nat)) (k : Char) (v : Nat) (c : Char) :
    List.lookup c (l.map (fun kv => if kv.1 = k then (kv.1, v) else kv))
    = if c = k ∧ l.any (fun kv => kv.1 == k) then some v else List.lookup c l := by
  induction l with
  | nil => simp [List.lookup]
  | cons kv l ih =>
    obtain ⟨k1, v1⟩ := kv
    by_cases hk1 : k1 = k
    · subst hk1
      have hmap : List.map (fun kv => if kv.1 = k1 then (kv.1, v) else kv) ((k1, v1) :: l)
          = (k1, v) :: List.map (fun kv => if kv.1 = k1 then (kv.1, v) else kv) l := by
        rw [List.map_cons]
        congr 1
        exact if_pos rfl
      rw [hmap]
      by_cases hck : c = k1
      · subst hck
        simp [List.lookup, beq_self_eq_true, List.any_cons]
      · have hbeq : (c == k1) = false := beq_eq_false_iff_ne.mpr hck
        simp [List.lookup, hbeq, ih, hck]
    · have hb : (k1 == k) = false := beq_eq_false_iff_ne.mpr hk1
      have hmap : List.map (fun kv => if kv.1 = k then (kv.1, v) else kv) ((k1, v1) :: l)
          = (k1, v1) :: List.map (fun kv => if kv.1 = k then (kv.1, v) else kv) l := by
        rw [List.map_cons]
        congr 1
        exact if_neg hk1
      rw [hmap]
      by_cases hck : c = k1
      · subst hck
        have hck2 : ¬ c = k := hk1
        simp [List.lookup, beq_self_eq_true, hck2]
      · have hbeq : (c == k1) = false := beq_eq_false_iff_ne.mpr hck
        simp [List.lookup, hbeq, ih, List.any_cons]
        rw [hb, Bool.false_or]

lemma lookup_dictSet (l : List (Char × Nat)) (k : Char) (v : Nat) (c : Char) :
    List.lookup c (dictSet l k v) = if c = k then some v else List.lookup c l := by
  by_cases hany : l.any (fun kv => kv.1 == k)
  · simp only [dictSet, if_pos hany, lookup_map_setval]
    by_cases hck : c = k
    · simp [hck, hany]
    · simp [hck]
  · simp only [dictSet, if_neg hany, lookup_append_pair]
    by_cases hck : c = k
    · subst hck
      have hnone : List.lookup c l = none := by
        rw [any_key_eq_lookup_isSome] at hany
        cases h : List.lookup c l with
        | none => rfl
        | some w => rw [h] at hany; simp at hany
      simp [hnone, List.lookup]
    · have hbeq : (c == k) = false := beq_eq_false_iff_ne.mpr hck
      cases h : List.lookup c l with
      | none => simp [h, hck, List.lookup, hbeq]
      | some w => simp [h, hck]

lemma lookup_dictPop (l : List (Char × Nat)) (k : Char) (c : Char) :
    List.lookup c (dictPop l k) = if c = k then none else List.lookup c l := by
  have h := lookup_filter_key (fun k1 => k1 != k) l c
  simp only [dictPop]
  rw [h]
  by_cases hck : c = k
  · simp [hck]
  · simp [hck, bne_iff_ne]

/-! Claims C5, C6, C7: keyboard layouts and the ASCII translator. -/

lemma lookup_en_US (c : Char) :
    List.lookup c (getLayoutD "en_US")
    = if c = Char.ofNat 172 then none
      else if c = Char.ofNat 163 then none
      else if c = Char.ofNat 35 then some 0x20
      else if c = Char.ofNat 64 then some 0x1F
      else if c = Char.ofNat 34 then some 0x34
      else List.lookup c (getLayoutD "en_GB") := by
  have hus : getLayoutD "en_US"
      = dictPop (dictPop (dictSet (dictSet (dictSet BASE_LAYOUT (Char.ofNat 34) 0x34)
          (Char.ofNat 64) 0x1F) (Char.ofNat 35) 0x20) (Char.ofNat 163)) (Char.ofNat 172) := rfl
  have hgb : getLayoutD "en_GB" = BASE_LAYOUT := rfl
  rw [hus, hgb, lookup_dictPop, lookup_dictPop, lookup_dictSet, lookup_dictSet, lookup_dictSet]

/-- The shared letter/digit character set of the two layouts. -/
def lettersDigits : List Char :=
  "abcdefghijklmnopqrstuvwxyzABCDEFGHIJKLMNOPQRSTUVWXYZ0123456789".toList

/-- C5 (confirmed): `get_layout` for en_US agrees with en_GB on every
letter and digit; the two layouts differ exactly at the five overridden
characters, with the documented codes (double quote 0x1F/0x34, at sign
0x34/0x1F, hash 0x32/0x20); the pound and not signs are mapped in en_GB
and absent from en_US. -/
theorem C5_layout_overrides :
    (∀ c ∈ lettersDigits,
      List.lookup c (getLayoutD "en_US") = List.lookup c (getLayoutD "en_GB"))
    ∧ List.lookup (Char.ofNat 34) (getLayoutD "en_GB") = some 0x1F
    ∧ List.lookup (Char.ofNat 34) (getLayoutD "en_US") = some 0x34
    ∧ List.lookup (Char.ofNat 64) (getLayoutD "en_GB") = some 0x34
    ∧ List.lookup (Char.ofNat 64) (getLayoutD "en_US") = some 0x1F
    ∧ List.lookup (Char.ofNat 35) (getLayoutD "en_GB") = some 0x32
    ∧ List.lookup (Char.ofNat 35) (getLayoutD "en_US") = some 0x20
    ∧ List.lookup (Char.ofNat 163) (getLayoutD "en_GB") = some 0x20
    ∧ List.lookup (Char.ofNat 163) (getLayoutD "en_US") = none
    ∧ List.lookup (Char.ofNat 172) (getLayoutD "en_GB") = some 0x35
    ∧ List.lookup (Char.ofNat 172) (getLayoutD "en_US") = none
    ∧ (∀ c, c ≠ Char.ofNat 34 → c ≠ Char.ofNat 64 → c ≠ Char.ofNat 35 →
        c ≠ Char.ofNat 163 → c ≠ Char.ofNat 172 →
        List.lookup c (getLayoutD "en_US") = List.lookup c (getLayoutD "en_GB")) := by
  refine ⟨by decide, rfl, rfl, rfl, rfl, rfl, rfl, rfl, rfl, rfl, rfl, ?_⟩
  intro c h34 h64 h35 h163 h172
  rw [lookup_en_US]
  simp [h34, h64, h35, h163, h172]

/-- C5 witness: instantiation of the quantified parts at the letter a and
at the semicolon (not an overridden character). -/
theorem C5_layout_overrides_witness :
    List.lookup (Char.ofNat 97) (getLayoutD "en_US")
      = List.lookup (Char.ofNat 97) (getLayoutD "en_GB")
    ∧ List.lookup (Char.ofNat 59) (getLayoutD "en_US")
      = List.lookup (Char.ofNat 59) (getLayoutD "en_GB") :=
  ⟨C5_layout_overrides.1 (Char.ofNat 97) (by decide),
   C5_layout_overrides.2.2.2.2.2.2.2.2.2.2.2 (Char.ofNat 59)
     (by decide) (by decide) (by decide) (by decide) (by decide)⟩

/-- C6 (confirmed): every layout name other than en_GB and en_US makes
`get_layout` raise ValueError, while `ascii_to_scancode` with the same
unknown name does not raise: it silently falls back and returns, for every
character, the scancode it returns under en_GB. -/
theorem C6_unknown_layout (layoutName : String)
    (h1 : layoutName ≠ "en_GB") (h2 : layoutName ≠ "en_US") :
    get_layout layoutName = .error "ValueError: Unknown keyboard layout"
    ∧ ∀ c, ascii_to_scancode c layoutName = ascii_to_scancode c "en_GB" := by
  have hb1 : (layoutName == "en_GB") = false := beq_eq_false_iff_ne.mpr h1
  have hb2 : (layoutName == "en_US") = false := beq_eq_false_iff_ne.mpr h2
  have hlk : List.lookup layoutName LAYOUT_OVERRIDES = none := by
    simp [LAYOUT_OVERRIDES, List.lookup, hb1, hb2]
  have herr : get_layout layoutName = .error "ValueError: Unknown keyboard layout" := by
    unfold get_layout get_layout_st
    rw [hlk]
    rfl
  refine ⟨herr, fun c => ?_⟩
  unfold ascii_to_scancode
  rw [herr]
  rfl

/-- C6 witness: the unknown name xx errors in `get_layout` but yields the
en_GB scancode for the letter a in `ascii_to_scancode`. -/
theorem C6_unknown_layout_witness :
    get_layout "xx" = .error "ValueError: Unknown keyboard layout"
    ∧ ascii_to_scancode (Char.ofNat 97) "xx" = ascii_to_scancode (Char.ofNat 97) "en_GB" :=
  ⟨(C6_unknown_layout "xx" (by decide) (by decide)).1,
   (C6_unknown_layout "xx" (by decide) (by decide)).2 (Char.ofNat 97)⟩

lemma lookup_nonshift_direct (M : List (Char × Nat)) (c : Char) (hd : isDirect c = true) :
    List.lookup c (M.filter (fun kv => isDirect kv.1)) = List.lookup c M := by
  rw [lookup_filter_key isDirect M c, if_pos hd]

lemma lookup_nonshift_nondirect (M : List (Char × Nat)) (c : Char)
    (hd : isDirect c = false) :
    List.lookup c (M.filter (fun kv => isDirect kv.1)) = none := by
  rw [lookup_filter_key isDirect M c, hd]
  simp

lemma lookup_shift_chars_direct (M : List (Char × Nat)) (c : Char)
    (hd : isDirect c = true) :
    List.lookup c (M.filter (fun kv =>
        !((M.filter (fun kv2 => isDirect kv2.1)).any (fun p => p.1 == kv.1))))
    = none := by
  rw [lookup_filter_key
    (fun k => !((M.filter (fun kv2 => isDirect kv2.1)).any (fun p => p.1 == k))) M c]
  rw [any_key_filter, hd, Bool.true_and]
  by_cases hany : M.any (fun kv => kv.1 == c)
  · simp [hany]
  · have hnone : List.lookup c M = none := by
      rw [any_key_eq_lookup_isSome] at hany
      cases h : List.lookup c M with
      | none => rfl
      | some w => rw [h] at hany; simp at hany
    simp [hany, hnone]

lemma lookup_shift_chars_nondirect (M : List (Char × Nat)) (c : Char)
    (hd : isDirect c = false) :
    List.lookup c (M.filter (fun kv =>
        !((M.filter (fun kv2 => isDirect kv2.1)).any (fun p => p.1 == kv.1))))
    = List.lookup c M := by
  rw [lookup_filter_key
    (fun k => !((M.filter (fun kv2 => isDirect kv2.1)).any (fun p => p.1 == k))) M c]
  rw [any_key_filter, hd, Bool.false_and]
  simp

/-- C7 (confirmed): for every character and valid layout name, the
translator returns: modifier 0 and the layout code in byte 2 for direct
characters present in the resolved layout (lowercase letters, digits,
whitespace and the fixed unshifted punctuation set of `isDirect`); the
Shift modifier 0x02 with the layout code for other mapped characters; and
the all-zero key-code-0 scancode, rather than an error, for characters
absent from the resolved layout. -/
theorem C7_translator_classes (asciiChar : Char) (layoutName : String)
    (hname : layoutName = "en_GB" ∨ layoutName = "en_US") :
    (∀ v, List.lookup asciiChar (getLayoutD layoutName) = some v → isDirect asciiChar = true →
      ascii_to_scancode asciiChar layoutName = build_scancode v 0x0)
    ∧ (∀ v, List.lookup asciiChar (getLayoutD layoutName) = some v → isDirect asciiChar = false →
      ascii_to_scancode asciiChar layoutName = build_scancode v 0x2)
    ∧ (List.lookup asciiChar (getLayoutD layoutName) = none →
      ascii_to_scancode asciiChar layoutName = build_scancode 0x0 0x0) := by
  have hok : get_layout layoutName = .ok (getLayoutD layoutName) := by
    rcases hname with rfl | rfl <;> rfl
  refine ⟨?_, ?_, ?_⟩
  · intro v hlv hd
    unfold ascii_to_scancode
    rw [hok]
    simp only [lookup_nonshift_direct (getLayoutD layoutName) asciiChar hd, hlv]
  · intro v hlv hd
    unfold ascii_to_scancode
    rw [hok]
    simp only [lookup_nonshift_nondirect (getLayoutD layoutName) asciiChar hd,
      lookup_shift_chars_nondirect (getLayoutD layoutName) asciiChar hd, hlv]
  · intro hnone
    unfold ascii_to_scancode
    rw [hok]
    by_cases hd : isDirect asciiChar
    · simp only [lookup_nonshift_direct (getLayoutD layoutName) asciiChar hd,
        lookup_shift_chars_direct (getLayoutD layoutName) asciiChar hd, hnone]
    · rw [Bool.not_eq_true] at hd
      simp only [lookup_nonshift_nondirect (getLayoutD layoutName) asciiChar hd,
        lookup_shift_chars_nondirect (getLayoutD layoutName) asciiChar hd, hnone]

/-- C7 witness: instantiation at the letter a (direct), the colon
(shift-required) and the bell character 7 (unmapped) under en_GB. -/
theorem C7_translator_classes_witness :
    ascii_to_scancode (Char.ofNat 97) "en_GB" = build_scancode 0x04 0x0
    ∧ ascii_to_scancode (Char.ofNat 58) "en_GB" = build_scancode 0x33 0x2
    ∧ ascii_to_scancode (Char.ofNat 7) "en_GB" = build_scancode 0x0 0x0 :=
  ⟨(C7_translator_classes (Char.ofNat 97) "en_GB" (Or.inl rfl)).1 0x04 (by decide) (by decide),
   (C7_translator_classes (Char.ofNat 58) "en_GB" (Or.inl rfl)).2.1 0x33 (by decide) (by decide),
   (C7_translator_classes (Char.ofNat 7) "en_GB" (Or.inl rfl)).2.2 (by decide)⟩

/-! Claims C2 and C9: the packet framer. -/

/-- C2 counterexample: with a well-formed head, addr and cmd but a payload
of 256 bytes, `send` raises OverflowError from
`len(data).to_bytes(1, "little")` and writes nothing, instead of writing
the claimed frame. -/
theorem C2_counterexample :
    DataComm.send (List.replicate 256 0) [0x57, 0xab] [0x00] [0x02]
    = .error "OverflowError: int too big to convert" := by
  unfold DataComm.send
  rw [if_neg (by simp), if_pos (by rw [List.length_replicate]; omega)]

/-- C2 (amended): for payloads of at most 255 bytes, `send` with a 2-byte
head, 1-byte addr and 1-byte cmd writes, in one call, exactly the frame
head + addr + cmd + len(data) + data + checksum with
checksum = (sum(head) + addr + cmd + len(data) + sum(data)) mod 256; with
the default head, addr and keyboard cmd an 8-byte payload gives a frame of
exactly 14 bytes whose last byte is that formula; malformed head/addr/cmd
raise ValueError with nothing written.  (Payloads longer than 255 bytes
raise OverflowError from the 1-byte length field, also writing nothing.) -/
theorem C2_send_frame :
    (∀ (data head : List Nat) (a c : Nat), head.length = 2 → data.length ≤ 255 →
      DataComm.send data head [a] [c]
      = .ok (head ++ [a] ++ [c] ++ [data.length] ++ data
          ++ [(head.sum + a + c + data.length + data.sum) % 256]))
    ∧ (∀ data : List Nat, data.length = 8 →
      DataComm.send data [0x57, 0xab] [0x00] [0x02]
      = .ok ([0x57, 0xab, 0x00, 0x02, 8] ++ data
          ++ [(0x57 + 0xab + 0x00 + 0x02 + 8 + data.sum) % 256])
      ∧ (([0x57, 0xab, 0x00, 0x02, 8] ++ data
          ++ [(0x57 + 0xab + 0x00 + 0x02 + 8 + data.sum) % 256]) : List Nat).length = 14)
    ∧ (∀ (data head addr cmd : List Nat),
      head.length ≠ 2 ∨ addr.length ≠ 1 ∨ cmd.length ≠ 1 →
      DataComm.send data head addr cmd
      = .error "ValueError: DataComm packet header MUST have: header 2b; addr 1b; cmd 1b") := by
  refine ⟨?_, ?_, ?_⟩
  · intro data head a c h2 h255
    unfold DataComm.send
    rw [if_neg (by simp [h2]), if_neg (by omega)]
    simp [intFromBytesBE]
  · intro data hd8
    constructor
    · unfold DataComm.send
      rw [if_neg (by simp), if_neg (by omega)]
      simp [intFromBytesBE, hd8]
    · simp [hd8]
  · intro data head addr cmd h
    unfold DataComm.send
    rw [if_pos h]

/-- C2 witness: a 3-byte payload frame, the 14-byte keyboard frame for an
8-byte payload, and a rejected 1-byte head. -/
theorem C2_send_frame_witness :
    DataComm.send [1, 2, 3] [0x57, 0xab] [0x00] [0x02]
      = .ok [0x57, 0xab, 0x00, 0x02, 3, 1, 2, 3, 13]
    ∧ DataComm.send [4, 0, 0, 0, 0, 0, 0, 0] [0x57, 0xab] [0x00] [0x02]
      = .ok [0x57, 0xab, 0x00, 0x02, 8, 4, 0, 0, 0, 0, 0, 0, 0, 16]
    ∧ DataComm.send [] [0x57] [0x00] [0x02]
      = .error "ValueError: DataComm packet header MUST have: header 2b; addr 1b; cmd 1b" :=
  ⟨(C2_send_frame.1 [1, 2, 3] [0x57, 0xab] 0x00 0x02 rfl (by decide)).trans (by rfl),
   ((C2_send_frame.2.1 [4, 0, 0, 0, 0, 0, 0, 0] (by decide)).1).trans (by rfl),
   C2_send_frame.2.2 [] [0x57] [0x00] [0x02] (by decide)⟩

/-- C9 (confirmed): `send_scancode` returns False and writes nothing for
scancodes shorter than 8 bytes, and for an exactly-8-byte scancode writes
the single keyboard frame (command 0x02, default head and addr) and
returns True. -/
theorem C9_send_scancode (scancode : List Nat) :
    (scancode.length < 8 → DataComm.send_scancode scancode = .ok (false, []))
    ∧ (scancode.length = 8 → DataComm.send_scancode scancode
        = .ok (true, [[0x57, 0xab, 0x00, 0x02, 8] ++ scancode
            ++ [(0x57 + 0xab + 0x00 + 0x02 + 8 + scancode.sum) % 256]])) := by
  constructor
  · intro h
    unfold DataComm.send_scancode
    rw [if_pos h]
  · intro h8
    unfold DataComm.send_scancode DataComm.sendDefault DataComm.send
    rw [if_neg (by omega), if_neg (by simp), if_neg (by omega)]
    simp [intFromBytesBE, h8]
    rfl

/-- C9 witness: the empty scancode fails softly; a single-key scancode is
framed with command 0x02 and checksum 17. -/
theorem C9_send_scancode_witness :
    DataComm.send_scancode [] = .ok (false, [])
    ∧ DataComm.send_scancode [1, 0, 4, 0, 0, 0, 0, 0]
      = .ok (true, [[0x57, 0xab, 0x00, 0x02, 8, 1, 0, 4, 0, 0, 0, 0, 0, 17]]) :=
  ⟨(C9_send_scancode []).1 (by decide),
   ((C9_send_scancode [1, 0, 4, 0, 0, 0, 0, 0]).2 (by decide)).trans (by rfl)⟩

/-! Claim C3: the USB passthrough poll step. -/

lemma send_scancode_eight (scancode : List Nat) (h8 : scancode.length = 8) :
    DataComm.send_scancode scancode
    = .ok (true, [[0x57, 0xab, 0x00, 0x02, 8] ++ scancode
        ++ [(0x57 + 0xab + 0x00 + 0x02 + 8 + scancode.sum) % 256]]) := by
  unfold DataComm.send_scancode DataComm.sendDefault DataComm.send
  rw [if_neg (by omega), if_neg (by simp), if_neg (by omega)]
  simp [intFromBytesBE, h8]
  rfl

lemma list_eight (l : List Nat) (h : l.length = 8) :
    ∃ b0 b1 b2 b3 b4 b5 b6 b7, l = [b0, b1, b2, b3, b4, b5, b6, b7] := by
  rcases l with _ | ⟨b0, _ | ⟨b1, _ | ⟨b2, _ | ⟨b3, _ | ⟨b4, _ | ⟨b5, _ | ⟨b6,
    _ | ⟨b7, _ | ⟨b8, l⟩⟩⟩⟩⟩⟩⟩⟩⟩
  all_goals try simp only [List.length_cons, List.length_nil] at h
  all_goals first
  | omega
  | exact ⟨b0, b1, b2, b3, b4, b5, b6, b7, rfl⟩

/-- C3 counterexample: the report with byte 0 = 0x05 (Ctrl bit 0x01 set,
together with Alt) and byte 2 = 0x29 (Esc) does NOT stop the loop: the
code compares byte 0 with 0x01 by equality rather than testing the Ctrl
bit, so the step forwards the report and returns True. -/
theorem C3_counterexample :
    ([5, 0, 0x29, 0, 0, 0, 0, 0].getD 0 0) &&& 0x01 ≠ 0
    ∧ PyUSBOp._parse_key [5, 0, 0x29, 0, 0, 0, 0, 0] none
      = .ok { cont := true, warned := false,
              sent := [[5, 0, 0x29, 0, 0, 0, 0, 0]], debounce := some "ESC" } :=
  ⟨by decide, rfl⟩

/-- C3 (amended): for every 8-byte report whose byte 0 equals 0x01 (LCtrl
alone): if byte 2 is 0x29 (Esc) the poll step signals loop termination
(returns False) and forwards nothing; if byte 2 is 0x06 (the c key) the
step does not terminate (send_scancode returns True), forwards the report
verbatim through send_scancode, and logs the pass-through warning exactly
when the current debounce state is not the string c. -/
theorem C3_ctrl_esc_ctrl_c (dataIn : List Nat) (debounce : Option String)
    (hlen : dataIn.length = 8) (hb0 : dataIn.getD 0 0 = 0x1) :
    (dataIn.getD 2 0 = 0x29 →
      PyUSBOp._parse_key dataIn debounce
      = .ok { cont := false, warned := false, sent := [], debounce := debounce })
    ∧ (dataIn.getD 2 0 = 0x6 →
      PyUSBOp._parse_key dataIn debounce
      = .ok { cont := true, warned := (debounce != some "c"),
              sent := [dataIn], debounce := some "c" }) := by
  obtain ⟨b0, b1, b2, b3, b4, b5, b6, b7, rfl⟩ := list_eight dataIn hlen
  have hb0e : b0 = 1 := hb0
  subst hb0e
  constructor
  · intro h29
    have hb2 : b2 = 0x29 := h29
    subst hb2
    rfl
  · intro h6
    have hb2 : b2 = 0x6 := h6
    subst hb2
    have hcond : ([1, b1, 6, b3, b4, b5, b6, b7].getD 0 0 == 0x1
        && [1, b1, 6, b3, b4, b5, b6, b7].getD 2 0 == 0x29) = false := rfl
    have hkey : scancode_to_ascii [1, b1, 6, b3, b4, b5, b6, b7] = some "c" := by
      unfold scancode_to_ascii
      norm_num [firstKey]
      decide
    unfold PyUSBOp._parse_key
    rw [hcond, if_neg Bool.false_ne_true, hkey,
      send_scancode_eight [1, b1, 6, b3, b4, b5, b6, b7] rfl]
    by_cases hdb : debounce = some "c"
    · subst hdb
      rfl
    · have hne : (some "c" == debounce) = false :=
        beq_eq_false_iff_ne.mpr (fun hcontra => hdb hcontra.symm)
      have hne2 : (debounce == some "c") = false := beq_eq_false_iff_ne.mpr hdb
      simp only [Except.map, bne, hne, hne2]
      rfl

/-- C3 witness: the canonical Ctrl+Esc report stops the loop; the Ctrl+C
report warns, forwards, and continues. -/
theorem C3_ctrl_esc_ctrl_c_witness :
    PyUSBOp._parse_key [1, 0, 0x29, 0, 0, 0, 0, 0] none
      = .ok { cont := false, warned := false, sent := [], debounce := none }
    ∧ PyUSBOp._parse_key [1, 0, 0x6, 0, 0, 0, 0, 0] none
      = .ok { cont := true, warned := true, sent := [[1, 0, 0x6, 0, 0, 0, 0, 0]],
              debounce := some "c" } :=
  ⟨(C3_ctrl_esc_ctrl_c [1, 0, 0x29, 0, 0, 0, 0, 0] none (by decide) (by decide)).1 (by decide),
   ((C3_ctrl_esc_ctrl_c [1, 0, 0x6, 0, 0, 0, 0, 0] none (by decide) (by decide)).2
     (by decide)).trans (by rfl)⟩

/-! Claim C8: the absolute mouse-move encoder. -/

/-- C8 counterexample: at x = 30720 on a 1920-wide screen the scaled X is
65536, which does not fit the 2-byte little-endian field: Python
`int.to_bytes(2, "little")` raises OverflowError and nothing is sent, so
the claim does not hold for all integer coordinates. -/
theorem C8_counterexample :
    MouseOp.on_move 30720 540 1920 1080
    = .error "OverflowError: int too big to convert" := by
  have h1 : Int.fdiv 125829120 1920 = 65536 := by decide
  have h2 : Int.fdiv 2211840 1080 = 2048 := by decide
  unfold MouseOp.on_move
  norm_num [h1, h2]

/-- C8 (amended): for all integers x, y and positive width, height whose
scaled coordinates — computed by exact floor division
scaled = (4096*coord) // dimension and folded, when negative, to
abs(4096 + scaled) — fit in two bytes (≤ 65535), on_move sends with
command 0x04 a payload of exactly 7 bytes: mode 0x02, button 0x00, X and Y
each 2 bytes little-endian, and one zero pad byte.  (Folded values above
65535 raise OverflowError and send nothing.) -/
theorem C8_on_move (x y width height : Int) (dx dy : Int)
    (hw : 0 < width) (hh : 0 < height)
    (hdx : dx = (if (4096 * x).fdiv width < 0 then |4096 + (4096 * x).fdiv width|
        else (4096 * x).fdiv width))
    (hdy : dy = (if (4096 * y).fdiv height < 0 then |4096 + (4096 * y).fdiv height|
        else (4096 * y).fdiv height))
    (hdx2 : dx ≤ 65535) (hdy2 : dy ≤ 65535) :
    MouseOp.on_move x y width height
    = .ok ([0x02, 0x00, dx.toNat % 256, dx.toNat / 256, dy.toNat % 256, dy.toNat / 256, 0],
        [0x04]) := by
  have hdxnn : 0 ≤ dx := by
    rw [hdx]
    split
    · exact abs_nonneg _
    · omega
  have hdynn : 0 ≤ dy := by
    rw [hdy]
    split
    · exact abs_nonneg _
    · omega
  subst hdx hdy
  unfold MouseOp.on_move
  rw [if_neg (by omega)]
  norm_num [List.replicate]

/-- C8 witness: the spec examples — the screen centre encodes X = Y = 2048,
and x = -100 folds to X = 3882 (bytes 42, 15). -/
theorem C8_on_move_witness :
    MouseOp.on_move 960 540 1920 1080 = .ok ([2, 0, 0, 8, 0, 8, 0], [4])
    ∧ MouseOp.on_move (-100) 540 1920 1080 = .ok ([2, 0, 42, 15, 0, 8, 0], [4]) :=
  ⟨(C8_on_move 960 540 1920 1080 2048 2048 (by decide) (by decide) (by decide) (by decide)
      (by decide) (by decide)).trans (by rfl),
   (C8_on_move (-100) 540 1920 1080 3882 2048 (by decide) (by decide) (by decide) (by decide)
      (by decide) (by decide)).trans (by rfl)⟩

/-! Claim C10: get_layout never mutates the shared base table. -/

/-- C10 (confirmed): across any sequence of `get_layout` calls, the
module-level BASE_LAYOUT state is unchanged (each call works on a copy), a
later call returns exactly the same mapping as a fresh first call would,
and the en_GB layout obtained after any call history — in particular after
an en_US call that removed the pound and not signs from its own returned
copy — still maps the pound sign to 0x20 and the not sign to 0x35. -/
theorem C10_base_layout_immutable (calls : List String) :
    runCalls calls BASE_LAYOUT = BASE_LAYOUT
    ∧ (∀ layoutName, get_layout_st (runCalls calls BASE_LAYOUT) layoutName
        = get_layout_st BASE_LAYOUT layoutName)
    ∧ List.lookup (Char.ofNat 163) (getLayoutSt (runCalls calls BASE_LAYOUT) "en_GB")
        = some 0x20
    ∧ List.lookup (Char.ofNat 172) (getLayoutSt (runCalls calls BASE_LAYOUT) "en_GB")
        = some 0x35 := by
  have hrun : ∀ (cs : List String) (s : List (Char × Nat)), runCalls cs s = s := by
    intro cs
    induction cs with
    | nil => intro s; rfl
    | cons c cs ih =>
      intro s
      unfold runCalls at ih ⊢
      simp only [List.foldl_cons]
      have hstep : (match get_layout_st s c with
          | .ok r => r.1
          | .error _ => s) = s := by
        unfold get_layout_st
        cases List.lookup c LAYOUT_OVERRIDES <;> rfl
      rw [hstep]
      exact ih s
  refine ⟨hrun calls BASE_LAYOUT, fun n => by rw [hrun], ?_, ?_⟩
  · rw [hrun]
    rfl
  · rw [hrun]
    rfl
